import Mathlib

/-!
# Water-level extraction pipeline: shallow embedding and verification

This file embeds the custom logic of the `norsc19-eo-learn-workshop`
water-monitor notebook (coverage filtering, valid-data mask computation,
Otsu-based water detection) and of the OSM input task, and proves or
refutes the specification claims about them.

Modelling conventions:
* a raster frame is a flattened list of pixels;
* floating-point NDWI values are `Option ℚ` (`none` models numpy NaN,
  which compares false under `>` and is counted as one distinct value by
  `np.unique`, the behaviour of numpy since 1.21);
* `threshold_otsu` is an external library (skimage) and is a parameter
  `otsu : List ℚ → ℚ` of the water detector; its documented behaviour of
  returning the single value on a constant image enters as a hypothesis;
* Python exceptions (ZeroDivisionError, ValueError) are `Except` errors.
-/

namespace WaterMonitor

/-- Number of `true` pixels of a boolean mask (`np.count_nonzero`). -/
def countTrue (l : List Bool) : ℕ := (l.filter id).length

/-- Function `calculate_coverage` from the notebook:
`1.0 - np.count_nonzero(array) / np.size(array)`. -/
def calculate_coverage (mask : List Bool) : ℚ :=
  1 - (countTrue mask : ℚ) / (mask.length : ℚ)

/-- Predicate `ValidDataCoveragePredicate.__call__` from the notebook:
`calculate_coverage(array) < self.threshold`. -/
def ValidDataCoveragePredicate (threshold : ℚ) (mask : List Bool) : Bool :=
  decide (calculate_coverage mask < threshold)

/-- One time frame of the EOPatch: the per-frame features touched by the
filtering stage (the NDWI grid, the VALID_DATA mask, the COVERAGE scalar). -/
structure TimeFrame where
  ndwi : List (Option ℚ)
  valid_data : List Bool
  coverage : ℚ
  deriving DecidableEq, Repr

/-- Task `SimpleFilterTask` on the VALID_DATA mask feature with the coverage predicate:
keeps exactly the frames whose VALID_DATA mask satisfies the predicate. -/
def SimpleFilterTask_run (threshold : ℚ) (frames : List TimeFrame) : List TimeFrame :=
  frames.filter (fun f => ValidDataCoveragePredicate threshold f.valid_data)

/-- Conversion of a `np.uint8` count to a boolean, `array.astype(np.bool)`. -/
def npAstypeBool (n : ℕ) : Bool := decide (n ≠ 0)

/-- Function `calculate_valid_data_mask` from the notebook:
`is_data.astype(bool) & ~clm.astype(bool)`, pixelwise over one frame. -/
def calculate_valid_data_mask (is_data clm : List ℕ) : List Bool :=
  List.zipWith (fun a c => npAstypeBool a && !(npAstypeBool c)) is_data clm

/-- NaN replacement `ndwi[np.isnan(ndwi)] = -1`: every NaN pixel becomes
the sentinel value `-1`. -/
def nanReplaced (ndwi : List (Option ℚ)) : List ℚ :=
  ndwi.map (fun v => v.getD (-1))

/-- numpy comparison `x > t` on a value that may be NaN: NaN compares false. -/
def nanGt (v : Option ℚ) (t : ℚ) : Bool :=
  match v with
  | none => false
  | some x => decide (t < x)

/-- Method `WaterDetectionTask.detect_water` from the notebook:
`otsu_thr = 1.0; if len(np.unique(ndwi)) > 1: ndwi[np.isnan(ndwi)] = -1;
otsu_thr = threshold_otsu(ndwi); return ndwi > otsu_thr`.
The external `skimage.filters.threshold_otsu` is the parameter `otsu`;
`np.unique` counts NaN as one distinct value (numpy ≥ 1.21). -/
def detect_water (otsu : List ℚ → ℚ) (ndwi : List (Option ℚ)) : List Bool :=
  if 1 < ndwi.dedup.length then
    (nanReplaced ndwi).map (fun x => decide (otsu (nanReplaced ndwi) < x))
  else
    ndwi.map (fun v => nanGt v 1)

/-- The in-place effect of `detect_water` on its argument: the assignment
`ndwi[np.isnan(ndwi)] = -1` writes through the numpy view into the EOPatch's
NDWI feature, but only in the more-than-one-distinct-value branch. -/
def detect_water_effect (ndwi : List (Option ℚ)) : List (Option ℚ) :=
  if 1 < ndwi.dedup.length then (nanReplaced ndwi).map some else ndwi

/-- The threshold choice as the spec words it (after NaN replacement):
Otsu if the replaced frame has more than one distinct value, else 1.0. -/
def specThreshold (otsu : List ℚ → ℚ) (nd : List ℚ) : ℚ :=
  if 1 < nd.dedup.length then otsu nd else 1

/-- Water detection as the claim words it: first replace NaN by the sentinel
`-1`, then pick the threshold on the replaced frame, then classify a pixel as
water iff its value is strictly greater than the chosen threshold. -/
def detect_water_spec (otsu : List ℚ → ℚ) (ndwi : List (Option ℚ)) : List Bool :=
  (nanReplaced ndwi).map
    (fun x => decide (specThreshold otsu (nanReplaced ndwi) < x))

lemma dedup_length_map_le {α β : Type} [DecidableEq α] [DecidableEq β]
    (f : α → β) (l : List α) : (l.map f).dedup.length ≤ l.dedup.length := by
  rw [← List.card_toFinset, ← List.card_toFinset]
  have h : (l.map f).toFinset = l.toFinset.image f := by
    ext b
    simp [List.mem_toFinset, List.mem_map, Finset.mem_image]
  rw [h]
  exact Finset.card_image_le

lemma eq_of_dedup_length_le_one {α : Type} [DecidableEq α] {l : List α}
    (h : l.dedup.length ≤ 1) : ∀ a ∈ l, ∀ b ∈ l, a = b := by
  intro a ha b hb
  have h1 : l.toFinset.card ≤ 1 := by rw [List.card_toFinset]; exact h
  exact Finset.card_le_one.mp h1 a (List.mem_toFinset.mpr ha) b (List.mem_toFinset.mpr hb)

lemma exists_ne_of_one_lt_dedup_length {α : Type} [DecidableEq α] {l : List α}
    (h : 1 < l.dedup.length) : ∃ a ∈ l, ∃ b ∈ l, a ≠ b := by
  have h1 : 1 < l.toFinset.card := by rw [List.card_toFinset]; exact h
  obtain ⟨a, ha, b, hb, hab⟩ := Finset.one_lt_card.mp h1
  exact ⟨a, List.mem_toFinset.mp ha, b, List.mem_toFinset.mp hb, hab⟩

/-- C2. Under the documented behaviour of `threshold_otsu` on constant
images (it returns the single value), the code's water classification
coincides, on every frame, with the spec's reading: replace NaN by the
sentinel first, use Otsu when the frame holds more than one distinct value
and the default threshold otherwise, and classify a pixel as water iff its
index value is strictly greater than the chosen threshold. -/
theorem detect_water_eq_spec (otsu : List ℚ → ℚ) (ndwi : List (Option ℚ))
    (hotsu : ∀ (c : ℚ) (n : ℕ), otsu (List.replicate (n + 1) c) = c) :
    detect_water otsu ndwi = detect_water_spec otsu ndwi := by
  by_cases hnd : 1 < (nanReplaced ndwi).dedup.length
  · have hcode : 1 < ndwi.dedup.length :=
      lt_of_lt_of_le hnd (dedup_length_map_le _ ndwi)
    rw [detect_water, detect_water_spec, specThreshold, if_pos hcode, if_pos hnd]
  · by_cases hcode : 1 < ndwi.dedup.length
    · -- the frame mixes NaN with the sentinel value only: the replaced frame
      -- is constant -1, so the Otsu threshold is -1 and both classifications
      -- are all-false.
      rw [detect_water, detect_water_spec, specThreshold, if_pos hcode, if_neg hnd]
      have hconst : ∀ a ∈ nanReplaced ndwi, ∀ b ∈ nanReplaced ndwi, a = b :=
        eq_of_dedup_length_le_one (le_of_not_lt hnd)
      have hneg1 : (-1 : ℚ) ∈ nanReplaced ndwi := by
        obtain ⟨a, ha, b, hb, hab⟩ := exists_ne_of_one_lt_dedup_length hcode
        cases a with
        | none =>
          have h0 := List.mem_map_of_mem (fun v : Option ℚ => v.getD (-1)) ha
          simpa [nanReplaced] using h0
        | some x =>
          cases b with
          | none =>
            have h0 := List.mem_map_of_mem (fun v : Option ℚ => v.getD (-1)) hb
            simpa [nanReplaced] using h0
          | some y =>
            exfalso
            apply hab
            have hx : x ∈ nanReplaced ndwi := by
              have h0 := List.mem_map_of_mem (fun v : Option ℚ => v.getD (-1)) ha
              simpa [nanReplaced] using h0
            have hy : y ∈ nanReplaced ndwi := by
              have h0 := List.mem_map_of_mem (fun v : Option ℚ => v.getD (-1)) hb
              simpa [nanReplaced] using h0
            rw [hconst x hx y hy]
      have hall : ∀ x ∈ nanReplaced ndwi, x = (-1 : ℚ) :=
        fun x hx => hconst x hx (-1) hneg1
      have hrep : nanReplaced ndwi =
          List.replicate (nanReplaced ndwi).length (-1 : ℚ) :=
        List.eq_replicate_length.mpr hall
      have hpos : 0 < (nanReplaced ndwi).length :=
        List.length_pos.mpr (List.ne_nil_of_mem hneg1)
      have hk : (nanReplaced ndwi).length - 1 + 1 = (nanReplaced ndwi).length :=
        Nat.succ_pred_eq_of_pos hpos
      have hthr : otsu (nanReplaced ndwi) = -1 := by
        conv_lhs => rw [hrep, ← hk]
        exact hotsu (-1) ((nanReplaced ndwi).length - 1)
      apply List.map_congr_left
      intro x hx
      rw [hall x hx, hthr]
      decide
    · rw [detect_water, detect_water_spec, specThreshold, if_neg hcode, if_neg hnd]
      rw [nanReplaced, List.map_map]
      apply List.map_congr_left
      intro v _
      cases v with
      | none => decide
      | some x => rfl

/-- Closed witness for the water-detection equivalence theorem, at a
concrete Otsu function satisfying the constant-image property and a
concrete frame containing a NaN pixel. -/
theorem detect_water_eq_spec_witness :
    (∀ (c : ℚ) (n : ℕ), (List.replicate (n + 1) c).headD 0 = c) ∧
    detect_water (fun l => l.headD 0) [some 2, none, some 0] =
      detect_water_spec (fun l => l.headD 0) [some 2, none, some 0] :=
  ⟨fun c n => by simp [List.replicate_succ],
   detect_water_eq_spec (fun l => l.headD 0) [some 2, none, some 0]
     (fun c n => by simp [List.replicate_succ])⟩

/-- The whole EOPatch as the water-detection stage sees it: the frame
stack, the timeless NOMINAL_WATER mask, and the two derived outputs. -/
structure EOPatchW where
  frames : List TimeFrame
  nominal_water : List Bool
  water_mask : List (List Bool)
  water_level : List ℚ
  deriving DecidableEq, Repr

/-- Ratio `np.count_nonzero(mask)/np.count_nonzero(nominal)`: Python division,
raising ZeroDivisionError when the denominator is zero. -/
def waterLevelFrac (mask nominal : List Bool) : Except String ℚ :=
  if countTrue nominal = 0 then .error "ZeroDivisionError: division by zero"
  else .ok ((countTrue mask : ℚ) / (countTrue nominal : ℚ))

/-- A Python list comprehension whose body may raise: elements are
processed left to right and the first exception aborts the whole list. -/
def mapExcept {α β : Type} (f : α → Except String β) : List α → Except String (List β)
  | [] => .ok []
  | a :: l =>
    match f a with
    | .error e => .error e
    | .ok b =>
      match mapExcept f l with
      | .error e => .error e
      | .ok bs => .ok (b :: bs)

/-- Combine `water_masks * nominal_water` from the execute method:
per-frame water masks intersected pixelwise with the nominal extent. -/
def waterMasksOf (otsu : List ℚ → ℚ) (p : EOPatchW) : List (List Bool) :=
  p.frames.map (fun f =>
    List.zipWith (fun a b => a && b) (detect_water otsu f.ndwi) p.nominal_water)

/-- Method `WaterDetectionTask.execute` from the notebook: detect water per frame
(the NaN replacement inside `detect_water` writes through the numpy view
into the NDWI feature), intersect with the nominal extent, divide each
mask's count by the nominal extent's count, and write the WATER_MASK and
WATER_LEVEL features. -/
def WaterDetectionTask_execute (otsu : List ℚ → ℚ) (p : EOPatchW) :
    Except String EOPatchW :=
  match mapExcept (fun m => waterLevelFrac m p.nominal_water) (waterMasksOf otsu p) with
  | .error e => .error e
  | .ok levels =>
      .ok { frames := p.frames.map (fun f => { f with ndwi := detect_water_effect f.ndwi }),
            nominal_water := p.nominal_water,
            water_mask := waterMasksOf otsu p,
            water_level := levels }

lemma countTrue_cons (a : Bool) (l : List Bool) :
    countTrue (a :: l) = (if a = true then 1 else 0) + countTrue l := by
  cases a <;> simp [countTrue, List.filter_cons, Nat.add_comm]

lemma countTrue_replicate_true (n : ℕ) : countTrue (List.replicate n true) = n := by
  induction n with
  | zero => rfl
  | succ n ih => simp [List.replicate_succ, countTrue_cons, ih, Nat.add_comm]

lemma countTrue_zipWith_and_le (l r : List Bool) :
    countTrue (List.zipWith (fun a b => a && b) l r) ≤ countTrue r := by
  induction l generalizing r with
  | nil => simp [countTrue]
  | cons a l ih =>
    cases r with
    | nil => simp [countTrue]
    | cons b r =>
      rw [List.zipWith_cons_cons, countTrue_cons, countTrue_cons]
      apply Nat.add_le_add
      · cases a <;> cases b <;> simp
      · exact ih r

lemma zipWith_and_replicate_true {m : List Bool} {k : ℕ} (h : m.length ≤ k) :
    List.zipWith (fun a b => a && b) m (List.replicate k true) = m := by
  induction m generalizing k with
  | nil => simp
  | cons a l ih =>
    cases k with
    | zero => simp at h
    | succ k =>
      rw [List.replicate_succ, List.zipWith_cons_cons, Bool.and_true,
        ih (Nat.le_of_succ_le_succ h)]

lemma detect_water_length (otsu : List ℚ → ℚ) (ndwi : List (Option ℚ)) :
    (detect_water otsu ndwi).length = ndwi.length := by
  rw [detect_water]
  split <;> simp [nanReplaced]

lemma mapExcept_waterLevel_ok {nominal : List Bool} (h : countTrue nominal ≠ 0)
    (l : List (List Bool)) :
    mapExcept (fun m => waterLevelFrac m nominal) l =
      .ok (l.map (fun m => (countTrue m : ℚ) / (countTrue nominal : ℚ))) := by
  induction l with
  | nil => rfl
  | cons a l ih =>
    simp only [mapExcept, ih]
    rw [waterLevelFrac, if_neg h]
    simp

lemma mapExcept_ok_mem {α β : Type} {f : α → Except String β} :
    ∀ {l : List α} {out : List β}, mapExcept f l = .ok out →
      ∀ b ∈ out, ∃ a ∈ l, f a = .ok b := by
  intro l
  induction l with
  | nil =>
    intro out h b hb
    rw [mapExcept] at h
    simp only [Except.ok.injEq] at h
    subst h
    simp at hb
  | cons a l ih =>
    intro out h b hb
    rw [mapExcept] at h
    cases hfa : f a with
    | error e => rw [hfa] at h; simp at h
    | ok b0 =>
      rw [hfa] at h
      cases hml : mapExcept f l with
      | error e => rw [hml] at h; simp at h
      | ok bs =>
        rw [hml] at h
        simp only [Except.ok.injEq] at h
        subst h
        rcases List.mem_cons.mp hb with hb0 | hbs
        · exact ⟨a, List.mem_cons_self a l, hb0 ▸ hfa⟩
        · obtain ⟨a1, ha1, hfa1⟩ := ih hml b hbs
          exact ⟨a1, List.mem_cons_of_mem a ha1, hfa1⟩

/-- C3. When the nominal extent has at least one true pixel, the water
detector returns (per frame) the boolean water mask intersected with the
nominal extent, and the scalar level `count(water ∧ nominal)/count(nominal)`;
over an all-true nominal mask on an N×N grid the level is
`count(water)/N²`. -/
theorem waterdetect_execute_outputs (otsu : List ℚ → ℚ) (p : EOPatchW)
    (h : countTrue p.nominal_water ≠ 0) :
    ∃ q, WaterDetectionTask_execute otsu p = .ok q ∧
      q.water_mask = p.frames.map (fun f =>
        List.zipWith (fun a b => a && b) (detect_water otsu f.ndwi) p.nominal_water) ∧
      q.water_level = p.frames.map (fun f =>
        (countTrue (List.zipWith (fun a b => a && b) (detect_water otsu f.ndwi)
          p.nominal_water) : ℚ) / (countTrue p.nominal_water : ℚ)) ∧
      (∀ N : ℕ, p.nominal_water = List.replicate (N * N) true →
        (∀ f ∈ p.frames, f.ndwi.length = N * N) →
        q.water_level = p.frames.map (fun f =>
          (countTrue (detect_water otsu f.ndwi) : ℚ) / ((N : ℚ) * (N : ℚ)))) := by
  have hex : WaterDetectionTask_execute otsu p = .ok
      { frames := p.frames.map (fun f => { f with ndwi := detect_water_effect f.ndwi }),
        nominal_water := p.nominal_water,
        water_mask := waterMasksOf otsu p,
        water_level := (waterMasksOf otsu p).map
          (fun m => (countTrue m : ℚ) / (countTrue p.nominal_water : ℚ)) } := by
    rw [WaterDetectionTask_execute, mapExcept_waterLevel_ok h]
  refine ⟨_, hex, ?_, ?_, ?_⟩
  · rfl
  · rw [waterMasksOf, List.map_map]
    rfl
  · intro N hN hlen
    rw [waterMasksOf, List.map_map]
    apply List.map_congr_left
    intro f hf
    have hzip : List.zipWith (fun a b => a && b) (detect_water otsu f.ndwi)
        p.nominal_water = detect_water otsu f.ndwi := by
      rw [hN]
      exact zipWith_and_replicate_true (by rw [detect_water_length, hlen f hf])
    have hcount : countTrue p.nominal_water = N * N := by
      rw [hN, countTrue_replicate_true]
    simp only [Function.comp_apply, hzip, hcount]
    push_cast
    ring_nf

/-- A concrete 2×2 frame: one pixel bright, three dark. -/
def sampleFrameA : TimeFrame :=
  { ndwi := [some 2, some 0, some 0, some 0],
    valid_data := [true, true, true, true],
    coverage := 0 }

/-- A concrete single-frame patch on a 2×2 grid with an all-true nominal
extent. -/
def samplePatchA : EOPatchW :=
  { frames := [sampleFrameA],
    nominal_water := [true, true, true, true],
    water_mask := [],
    water_level := [] }

/-- Closed witness for the water-detection output theorem: a single 2×2
frame with an all-true nominal extent. -/
theorem waterdetect_execute_outputs_witness :
    countTrue samplePatchA.nominal_water ≠ 0 ∧
    ∃ q, WaterDetectionTask_execute (fun l => l.headD 0) samplePatchA = .ok q ∧
      q.water_mask = [[false, false, false, false]] ∧
      q.water_level = [0] := by
  refine ⟨by decide, ?_⟩
  obtain ⟨q, h1, h2, h3, _⟩ :=
    waterdetect_execute_outputs (fun l => l.headD 0) samplePatchA (by decide)
  refine ⟨q, h1, ?_, ?_⟩
  · rw [h2]; decide
  · rw [h3]
    have h5 : countTrue (List.zipWith (fun a b => a && b)
        (detect_water (fun l => l.headD 0) sampleFrameA.ndwi)
        samplePatchA.nominal_water) = 0 := by decide
    show [(countTrue (List.zipWith (fun a b => a && b)
        (detect_water (fun l => l.headD 0) sampleFrameA.ndwi)
        samplePatchA.nominal_water) : ℚ) / (countTrue samplePatchA.nominal_water : ℚ)] = [0]
    rw [h5]
    norm_num

/-- C5. When the nominal extent mask has zero true pixels (and there is at
least one frame, so the per-frame division is reached), the water
detector's execution raises rather than returning a result. -/
theorem waterdetect_execute_zero_nominal_fails (otsu : List ℚ → ℚ) (p : EOPatchW)
    (h0 : countTrue p.nominal_water = 0) (h1 : p.frames ≠ []) :
    WaterDetectionTask_execute otsu p = .error "ZeroDivisionError: division by zero" := by
  cases hp : p.frames with
  | nil => exact absurd hp h1
  | cons f fs =>
    rw [WaterDetectionTask_execute, waterMasksOf, hp]
    simp [mapExcept, waterLevelFrac, h0]

/-- A concrete single-frame patch whose nominal extent has no true pixel. -/
def samplePatchB : EOPatchW :=
  { frames := [{ ndwi := [some 2, some 0],
                 valid_data := [true, true],
                 coverage := 0 }],
    nominal_water := [false, false],
    water_mask := [],
    water_level := [] }

/-- Closed witness for the zero-nominal failure theorem. -/
theorem waterdetect_execute_zero_nominal_fails_witness :
    (countTrue samplePatchB.nominal_water = 0 ∧ samplePatchB.frames ≠ []) ∧
    WaterDetectionTask_execute (fun l => l.headD 0) samplePatchB =
      .error "ZeroDivisionError: division by zero" :=
  ⟨⟨by decide, by decide⟩,
   waterdetect_execute_zero_nominal_fails (fun l => l.headD 0) samplePatchB
     (by decide) (by decide)⟩

lemma detect_water_effect_of_no_nan {ndwi : List (Option ℚ)}
    (h : (none : Option ℚ) ∉ ndwi) : detect_water_effect ndwi = ndwi := by
  rw [detect_water_effect]
  split
  · rw [nanReplaced, List.map_map]
    conv_rhs => rw [← List.map_id ndwi]
    apply List.map_congr_left
    intro v hv
    cases v with
    | none => exact absurd hv h
    | some x => rfl
  · rfl

/-- A concrete patch whose single frame holds a NaN pixel next to an
ordinary value. -/
def samplePatchC : EOPatchW :=
  { frames := [{ ndwi := [none, some 5],
                 valid_data := [true, true],
                 coverage := 0 }],
    nominal_water := [true, true],
    water_mask := [],
    water_level := [] }

/-- C8 counterexample: on a frame containing a NaN pixel the execution
succeeds but stores an NDWI stack in which the NaN has been overwritten
with the sentinel −1, so the input NDWI stack is not left unchanged. -/
theorem waterdetect_execute_mutates_ndwi :
    (WaterDetectionTask_execute (fun l => l.headD 0) samplePatchC).toOption.map
      (fun q => q.frames.map (fun f => f.ndwi)) = some [[some (-1), some 5]] ∧
    samplePatchC.frames.map (fun f => f.ndwi) = [[none, some 5]] ∧
    ([[some (-1), some 5]] : List (List (Option ℚ))) ≠ [[none, some 5]] := by
  refine ⟨by decide, by decide, by decide⟩

/-- C8 amended: the water detector is deterministic, writes the water mask
and water level, leaves the nominal extent, the valid-data masks and the
coverages unchanged, and touches the NDWI stack exactly through
`detect_water_effect`, which replaces NaN pixels with the sentinel −1; a
NaN-free patch keeps its frames identical. -/
theorem waterdetect_execute_effects (otsu : List ℚ → ℚ) (p q : EOPatchW)
    (h : WaterDetectionTask_execute otsu p = .ok q) :
    q.nominal_water = p.nominal_water ∧
    q.frames = p.frames.map (fun f => { f with ndwi := detect_water_effect f.ndwi }) ∧
    q.frames.map (fun f => f.valid_data) = p.frames.map (fun f => f.valid_data) ∧
    q.frames.map (fun f => f.coverage) = p.frames.map (fun f => f.coverage) ∧
    ((∀ f ∈ p.frames, (none : Option ℚ) ∉ f.ndwi) → q.frames = p.frames) ∧
    (∀ p2 : EOPatchW, p2 = p →
      WaterDetectionTask_execute otsu p2 = WaterDetectionTask_execute otsu p) := by
  rw [WaterDetectionTask_execute] at h
  cases hm : mapExcept (fun m => waterLevelFrac m p.nominal_water) (waterMasksOf otsu p) with
  | error e => rw [hm] at h; simp at h
  | ok levels =>
    rw [hm] at h
    simp only [Except.ok.injEq] at h
    subst h
    refine ⟨rfl, rfl, ?_, ?_, ?_, ?_⟩
    · rw [List.map_map]
      rfl
    · rw [List.map_map]
      rfl
    · intro hno
      show p.frames.map (fun f => { f with ndwi := detect_water_effect f.ndwi }) = p.frames
      conv_rhs => rw [← List.map_id p.frames]
      apply List.map_congr_left
      intro f hf
      rw [detect_water_effect_of_no_nan (hno f hf)]
      rfl
    · intro p2 h2
      rw [h2]

/-- A concrete NaN-free single-frame patch. -/
def samplePatchD : EOPatchW :=
  { frames := [{ ndwi := [some 1, some 0],
                 valid_data := [true, true],
                 coverage := 0 }],
    nominal_water := [true, true],
    water_mask := [],
    water_level := [] }

/-- Closed witness for the execution-effects theorem. -/
theorem waterdetect_execute_effects_witness :
    ∃ q, WaterDetectionTask_execute (fun l => l.headD 0) samplePatchD = .ok q ∧
      (q.nominal_water = samplePatchD.nominal_water ∧
       q.frames = samplePatchD.frames.map
         (fun f => { f with ndwi := detect_water_effect f.ndwi }) ∧
       q.frames.map (fun f => f.valid_data) =
         samplePatchD.frames.map (fun f => f.valid_data) ∧
       q.frames.map (fun f => f.coverage) =
         samplePatchD.frames.map (fun f => f.coverage) ∧
       ((∀ f ∈ samplePatchD.frames, (none : Option ℚ) ∉ f.ndwi) →
         q.frames = samplePatchD.frames) ∧
       (∀ p2 : EOPatchW, p2 = samplePatchD →
         WaterDetectionTask_execute (fun l => l.headD 0) p2 =
           WaterDetectionTask_execute (fun l => l.headD 0) samplePatchD)) := by
  have hex : ∃ q, WaterDetectionTask_execute (fun l => l.headD 0) samplePatchD = .ok q := by
    cases hq : WaterDetectionTask_execute (fun l => l.headD 0) samplePatchD with
    | error e =>
      have hh : (WaterDetectionTask_execute (fun l => l.headD 0) samplePatchD).isOk = true := by
        decide
      rw [hq] at hh
      simp [Except.isOk, Except.toBool] at hh
    | ok q => exact ⟨q, rfl⟩
  obtain ⟨q, hq⟩ := hex
  exact ⟨q, hq, waterdetect_execute_effects (fun l => l.headD 0) samplePatchD q hq⟩

/-- C9. Every water-level scalar written by the water detector lies in
[0, 1]: the water mask is intersected with the nominal extent before
counting, so its count never exceeds the nominal extent's count. -/
theorem water_level_in_unit_interval (otsu : List ℚ → ℚ) (p q : EOPatchW)
    (h : WaterDetectionTask_execute otsu p = .ok q) :
    ∀ x ∈ q.water_level, 0 ≤ x ∧ x ≤ 1 := by
  rw [WaterDetectionTask_execute] at h
  cases hm : mapExcept (fun m => waterLevelFrac m p.nominal_water) (waterMasksOf otsu p) with
  | error e => rw [hm] at h; simp at h
  | ok levels =>
    rw [hm] at h
    simp only [Except.ok.injEq] at h
    subst h
    intro x hx
    obtain ⟨m, hmem, hfm⟩ := mapExcept_ok_mem hm x hx
    rw [waterLevelFrac] at hfm
    by_cases h0 : countTrue p.nominal_water = 0
    · rw [if_pos h0] at hfm
      simp at hfm
    · rw [if_neg h0] at hfm
      simp only [Except.ok.injEq] at hfm
      subst hfm
      have hle : countTrue m ≤ countTrue p.nominal_water := by
        obtain ⟨f, _, hfm2⟩ := List.mem_map.mp hmem
        rw [← hfm2]
        exact countTrue_zipWith_and_le _ _
      have hpos : (0 : ℚ) < (countTrue p.nominal_water : ℚ) := by
        exact_mod_cast Nat.pos_of_ne_zero h0
      constructor
      · exact div_nonneg (by positivity) (le_of_lt hpos)
      · rw [div_le_one hpos]
        exact_mod_cast hle

/-- A concrete patch for the unit-interval witness: nominal extent with one
true pixel. -/
def samplePatchE : EOPatchW :=
  { frames := [{ ndwi := [some 2, some 0],
                 valid_data := [true, true],
                 coverage := 0 }],
    nominal_water := [true, false],
    water_mask := [],
    water_level := [] }

/-- Closed witness for the unit-interval theorem. -/
theorem water_level_in_unit_interval_witness :
    ∃ q, WaterDetectionTask_execute (fun l => l.headD 0) samplePatchE = .ok q ∧
      ∀ x ∈ q.water_level, 0 ≤ x ∧ x ≤ 1 := by
  have hex : ∃ q, WaterDetectionTask_execute (fun l => l.headD 0) samplePatchE = .ok q := by
    cases hq : WaterDetectionTask_execute (fun l => l.headD 0) samplePatchE with
    | error e =>
      have hh : (WaterDetectionTask_execute (fun l => l.headD 0) samplePatchE).isOk = true := by
        decide
      rw [hq] at hh
      simp [Except.isOk, Except.toBool] at hh
    | ok q => exact ⟨q, rfl⟩
  obtain ⟨q, hq⟩ := hex
  exact ⟨q, hq, water_level_in_unit_interval (fun l => l.headD 0) samplePatchE q hq⟩

/-- C1. The coverage filter keeps a frame iff
`1 − count_true/total < threshold`; equivalently the predicate holds iff
`calculate_coverage` is strictly below the threshold. -/
theorem coverage_filter_keeps_iff (t : ℚ) (m : List Bool)
    (f : TimeFrame) (s : List TimeFrame) :
    (ValidDataCoveragePredicate t m = true ↔
      1 - (countTrue m : ℚ) / (m.length : ℚ) < t) ∧
    (f ∈ SimpleFilterTask_run t s ↔
      f ∈ s ∧ calculate_coverage f.valid_data < t) := by
  constructor
  · simp [ValidDataCoveragePredicate, calculate_coverage]
  · simp [SimpleFilterTask_run, List.mem_filter, ValidDataCoveragePredicate]

/-- C4. The validity mask is, pixelwise, the AND of the data-presence mask
with the NOT of the cloud mask. -/
theorem valid_data_mask_pixelwise (d c : List ℕ) (i : ℕ)
    (hd : i < d.length) (hc : i < c.length) :
    (calculate_valid_data_mask d c).getD i false =
      (npAstypeBool (d.getD i 0) && !(npAstypeBool (c.getD i 0))) := by
  induction d generalizing c i with
  | nil => simp at hd
  | cons a d ih =>
    cases c with
    | nil => simp at hc
    | cons b c =>
      cases i with
      | zero => rfl
      | succ j =>
        simp only [calculate_valid_data_mask, List.zipWith_cons_cons, List.getD_cons_succ]
        exact ih c j (by simpa using hd) (by simpa using hc)

/-- Closed witness for the pixelwise validity-mask theorem. -/
theorem valid_data_mask_pixelwise_witness :
    (1 < 2 ∧ 1 < 2) ∧
    (calculate_valid_data_mask [1, 1] [0, 1]).getD 1 false =
      (npAstypeBool (([1, 1] : List ℕ).getD 1 0) &&
        !(npAstypeBool (([0, 1] : List ℕ).getD 1 0))) :=
  ⟨⟨by decide, by decide⟩, valid_data_mask_pixelwise [1, 1] [0, 1] 1 (by decide) (by decide)⟩

/-- C7. The coverage filter is idempotent: filtering an already-filtered
stack with the same threshold yields an identical stack. -/
theorem simple_filter_idempotent (t : ℚ) (s : List TimeFrame) :
    SimpleFilterTask_run t (SimpleFilterTask_run t s) = SimpleFilterTask_run t s := by
  simp [SimpleFilterTask_run, List.filter_filter]

/-! ## Grid-level model of the numpy combines (spatial shape handling)

The notebook combines grids with numpy elementwise operators
(`is_data & ~clm`, `water_masks * nominal`), whose shape handling is
numpy broadcasting: an operation fails with ValueError only when an axis
pair is incompatible, and an axis of size 1 is silently stretched. -/

/-- numpy broadcast compatibility of one axis pair: the sizes combine iff
they are equal or one of them is 1. -/
def dimCompat (a b : ℕ) : Bool := a == b || a == 1 || b == 1

/-- A 2-D raster grid stored row-major, as numpy holds the two spatial
axes of one frame. -/
structure Grid (α : Type) where
  height : ℕ
  width : ℕ
  cells : List α
  deriving DecidableEq, Repr

/-- Cell lookup with a default, row-major. -/
def Grid.get {α : Type} (g : Grid α) (d : α) (i j : ℕ) : α :=
  g.cells.getD (i * g.width + j) d

/-- numpy elementwise binary operation with broadcasting over the two
spatial axes: it fails (ValueError) iff some axis pair is incompatible,
and it reads index 0 along any axis of size 1. -/
def broadcastBinOp {α β : Type} (f : α → α → β) (d : α) (g1 g2 : Grid α) :
    Option (Grid β) :=
  if dimCompat g1.height g2.height && dimCompat g1.width g2.width then
    some { height := max g1.height g2.height,
           width := max g1.width g2.width,
           cells := (List.range (max g1.height g2.height * max g1.width g2.width)).map
             (fun k =>
               f (g1.get d (if g1.height = 1 then 0 else k / max g1.width g2.width)
                    (if g1.width = 1 then 0 else k % max g1.width g2.width))
                 (g2.get d (if g2.height = 1 then 0 else k / max g1.width g2.width)
                    (if g2.width = 1 then 0 else k % max g1.width g2.width))) }
  else none

/-- The validity-mask combine `is_data.astype(bool) & ~clm.astype(bool)`
at grid level: numpy `&` with broadcasting. -/
def calculate_valid_data_mask_grid (is_data clm : Grid ℕ) : Option (Grid Bool) :=
  broadcastBinOp (fun a c => npAstypeBool a && !(npAstypeBool c)) 0 is_data clm

/-- The water combine `water_masks * nominal` at grid level: numpy `*` on
boolean masks with broadcasting. -/
def water_nominal_combine_grid (water nominal : Grid Bool) : Option (Grid Bool) :=
  broadcastBinOp (fun a b => a && b) false water nominal

/-- C6 counterexample: a 2×2 grid and a 2×1 grid do not share identical
spatial dimensions, yet both grid-combining stages silently produce a
result (numpy broadcasts the width-1 axis) instead of failing. -/
theorem grid_combine_mismatch_counterexample :
    ((Grid.mk 2 2 [1, 1, 1, 1] : Grid ℕ).width ≠ (Grid.mk 2 1 [0, 0] : Grid ℕ).width ∧
      (calculate_valid_data_mask_grid (Grid.mk 2 2 [1, 1, 1, 1])
        (Grid.mk 2 1 [0, 0])).isSome = true) ∧
    ((Grid.mk 2 2 [true, true, true, true] : Grid Bool).width ≠
        (Grid.mk 2 1 [true, true] : Grid Bool).width ∧
      (water_nominal_combine_grid (Grid.mk 2 2 [true, true, true, true])
        (Grid.mk 2 1 [true, true])).isSome = true) := by
  decide

/-- C6 amended: each grid-combining stage fails exactly when the two grids'
spatial dimensions are not numpy-broadcast-compatible (some axis pair is
unequal with neither size 1); mismatched dimensions where one side is 1
are silently broadcast. -/
theorem grid_combine_fails_iff_not_broadcastable (d1 d2 : Grid ℕ) (w1 w2 : Grid Bool) :
    ((calculate_valid_data_mask_grid d1 d2).isSome = true ↔
      (dimCompat d1.height d2.height && dimCompat d1.width d2.width) = true) ∧
    ((water_nominal_combine_grid w1 w2).isSome = true ↔
      (dimCompat w1.height w2.height && dimCompat w1.width w2.width) = true) := by
  constructor
  · rw [calculate_valid_data_mask_grid, broadcastBinOp]
    split <;> simp_all
  · rw [water_nominal_combine_grid, broadcastBinOp]
    split <;> simp_all

/-! ## OSM input task (data-sources-explorer notebook) -/

/-- A bounding box (min_x, min_y, max_x, max_y). -/
structure OsmBBox where
  min_x : ℚ
  min_y : ℚ
  max_x : ℚ
  max_y : ℚ
  deriving DecidableEq, Repr

/-- Rendering of `tuple([*ll_bounds.reverse()])` into the Overpass query
string: the bbox coordinates in reversed (lat, lon) order. -/
def osmBBoxString (b : OsmBBox) : String :=
  "(" ++ toString b.min_y ++ ", " ++ toString b.min_x ++ ", " ++
    toString b.max_y ++ ", " ++ toString b.max_x ++ ")"

/-- The EOPatch as `OsmInputTask` sees it: an optional bounding box and
the VECTOR_TIMELESS features; the geometry payload stays abstract. -/
structure OsmEOPatch (γ : Type) where
  bbox : Option OsmBBox
  vector_timeless : List (String × List γ)
  deriving DecidableEq, Repr

/-- Feature assignment `eopatch[self.feature] = gdf`: set or overwrite one
named feature. -/
def setFeature {γ : Type} (name : String) (value : List γ)
    (l : List (String × List γ)) : List (String × List γ) :=
  (name, value) :: l.filter (fun pr => pr.1 != name)

/-- Configuration of `OsmInputTask.__init__`: target feature name,
Overpass query string, polygonize flag. -/
structure OsmTaskCfg where
  feature : String
  query : String
  polygonize : Bool
  deriving DecidableEq, Repr

/-- Embedding of `OsmInputTask.execute` from the data-sources notebook:
guard on the bbox (raise ValueError when missing), transform the bbox to
WGS84, build the Overpass request from the query and the reversed bounds,
fetch, convex-hull (when polygonize) and clip each geometry, convert CRS
and store the feature. The external collaborators (the Overpass API, the
CRS transforms, shapely's convex hull and intersection) are parameters;
the second component of the result lists the Overpass requests issued
during the call. -/
def OsmInputTask_execute {γ : Type} (api : String → List γ)
    (transformWgs : OsmBBox → OsmBBox) (hull : γ → γ) (clip : OsmBBox → γ → γ)
    (toCrs : List γ → List γ) (task : OsmTaskCfg) (p : OsmEOPatch γ) :
    Except String (OsmEOPatch γ) × List String :=
  match p.bbox with
  | none => (.error "Each EOPatch requires a bbox to fetch data", [])
  | some bb =>
      let ll := transformWgs bb
      let req := task.query ++ osmBBoxString ll
      let response := api req
      let processed := response.map
        (fun g => clip ll (if task.polygonize then hull g else g))
      (.ok { p with
              vector_timeless := setFeature task.feature (toCrs processed) p.vector_timeless },
       [req])

/-- C10. With no bounding box, the OSM input task raises ValueError and
issues no Overpass request (so the patch is left untouched); a request is
issued only when the bounding-box check passes. -/
theorem osm_execute_bbox_guard {γ : Type} (api : String → List γ)
    (transformWgs : OsmBBox → OsmBBox) (hull : γ → γ) (clip : OsmBBox → γ → γ)
    (toCrs : List γ → List γ) (task : OsmTaskCfg) (p : OsmEOPatch γ)
    (h : p.bbox = none) :
    OsmInputTask_execute api transformWgs hull clip toCrs task p =
      (.error "Each EOPatch requires a bbox to fetch data", []) ∧
    ∀ p2 : OsmEOPatch γ,
      (OsmInputTask_execute api transformWgs hull clip toCrs task p2).2 ≠ [] →
        p2.bbox.isSome = true := by
  constructor
  · rw [OsmInputTask_execute, h]
  · intro p2 hreq
    cases hb : p2.bbox with
    | none =>
      rw [OsmInputTask_execute, hb] at hreq
      simp at hreq
    | some bb => rfl

/-- A concrete OSM patch with no bounding box. -/
def sampleOsmPatch : OsmEOPatch ℕ := { bbox := none, vector_timeless := [] }

/-- A concrete OSM task configuration. -/
def sampleOsmTask : OsmTaskCfg :=
  { feature := "residential", query := "way", polygonize := false }

/-- Closed witness for the OSM bounding-box guard theorem. -/
theorem osm_execute_bbox_guard_witness :
    sampleOsmPatch.bbox = none ∧
    (OsmInputTask_execute (fun _ => ([] : List ℕ)) id id (fun _ g => g) id
        sampleOsmTask sampleOsmPatch =
      (.error "Each EOPatch requires a bbox to fetch data", []) ∧
     ∀ p2 : OsmEOPatch ℕ,
       (OsmInputTask_execute (fun _ => ([] : List ℕ)) id id (fun _ g => g) id
           sampleOsmTask p2).2 ≠ [] →
         p2.bbox.isSome = true) :=
  ⟨rfl, osm_execute_bbox_guard (fun _ => ([] : List ℕ)) id id (fun _ g => g) id
    sampleOsmTask sampleOsmPatch rfl⟩

end WaterMonitor
